import Mathlib

/-
Verification development for the interval-analysis core of
src/src/python_module/interval_analysis/range_analysis.py.

The Python code manipulates numbers that are either exact ints or the
floats float('-inf'), float('inf') and (on some dead paths) nan, and uses
None to mark an absent bound.  We embed the numeric values as `EVal`
(with Python's comparison semantics, where nan is incomparable and not
equal to itself) and a bound as `Option EVal` (none = Python None).
-/

namespace RangeAnalysis

/-- A Python numeric value as used for interval bounds: an exact int,
float('-inf'), float('inf'), or nan (which can arise from arithmetic on
mixed infinities). -/
inductive EVal where
  | negInf : EVal
  | posInf : EVal
  | nan : EVal
  | int (n : Int) : EVal
deriving DecidableEq, Repr

namespace EVal

/-- Python `==` on these values: nan is not equal to anything (itself
included); infinities and ints compare structurally. -/
def pyEq : EVal → EVal → Bool
  | nan, _ => false
  | _, nan => false
  | negInf, negInf => true
  | posInf, posInf => true
  | int a, int b => a == b
  | _, _ => false

/-- Python `<`: nan is incomparable; -inf is below every int and +inf. -/
def pyLt : EVal → EVal → Bool
  | negInf, int _ => true
  | negInf, posInf => true
  | int _, posInf => true
  | int a, int b => a < b
  | _, _ => false

/-- Python `<=` (equivalent to `<` or `==` on floats/ints). -/
def pyLe (a b : EVal) : Bool := pyLt a b || pyEq a b

/-- Python `>`. -/
def pyGt (a b : EVal) : Bool := pyLt b a

/-- Python `>=`. -/
def pyGe (a b : EVal) : Bool := pyLe b a

/-- Python unary minus. -/
def pyNeg : EVal → EVal
  | negInf => posInf
  | posInf => negInf
  | nan => nan
  | int n => int (-n)

/-- Python abs(). -/
def pyAbs : EVal → EVal
  | negInf => posInf
  | posInf => posInf
  | nan => nan
  | int n => int n.natAbs

/-- Python `+` on ints/floats: inf + (-inf) is nan; nan propagates. -/
def pyAdd : EVal → EVal → EVal
  | nan, _ => nan
  | _, nan => nan
  | negInf, posInf => nan
  | posInf, negInf => nan
  | negInf, _ => negInf
  | _, negInf => negInf
  | posInf, _ => posInf
  | _, posInf => posInf
  | int a, int b => int (a + b)

/-- Python `-` via negation of the right operand (matches float rules:
inf - inf = nan, etc.). -/
def pySub (a b : EVal) : EVal := pyAdd a (pyNeg b)

/-- Python `*`: inf times zero is nan; otherwise signs multiply; nan
propagates. -/
def pyMul : EVal → EVal → EVal
  | nan, _ => nan
  | _, nan => nan
  | negInf, negInf => posInf
  | negInf, posInf => negInf
  | posInf, negInf => negInf
  | posInf, posInf => posInf
  | negInf, int b => if b > 0 then negInf else if b < 0 then posInf else nan
  | posInf, int b => if b > 0 then posInf else if b < 0 then negInf else nan
  | int a, negInf => if a > 0 then negInf else if a < 0 then posInf else nan
  | int a, posInf => if a > 0 then posInf else if a < 0 then negInf else nan
  | int a, int b => int (a * b)

/-- Python's two-argument builtin min: returns the second argument when
it compares strictly below the first, else the first (so min(nan, x)
is nan and min(x, nan) is x, as in CPython). -/
def pyMin2 (a b : EVal) : EVal := if pyLt b a then b else a

/-- Python's two-argument builtin max, with the same CPython tie/nan
behaviour. -/
def pyMax2 (a b : EVal) : EVal := if pyGt b a then b else a

end EVal

/-- The Python exceptions the embedded code can raise. -/
inductive PyErr where
  | valueError : PyErr
  | typeError : PyErr
  | overflowError : PyErr
  | zeroDivisionError : PyErr
deriving DecidableEq, Repr

namespace EVal

/-- Python builtin min over a non-empty sequence (left fold keeping the
current value unless a later item compares strictly below); raises
ValueError on an empty sequence. -/
def pyMinList : List EVal → Except PyErr EVal
  | [] => .error .valueError
  | x :: xs => .ok (xs.foldl (fun acc y => if pyLt y acc then y else acc) x)

/-- Python builtin max over a non-empty sequence; raises ValueError on
an empty sequence. -/
def pyMaxList : List EVal → Except PyErr EVal
  | [] => .error .valueError
  | x :: xs => .ok (xs.foldl (fun acc y => if pyGt y acc then y else acc) x)

/-- Python int(x): identity on ints, OverflowError on infinities,
ValueError on nan. -/
def pyToInt : EVal → Except PyErr Int
  | int n => .ok n
  | nan => .error .valueError
  | _ => .error .overflowError

/-- Python `<<`: only defined between ints, and the shift count must be
non-negative (ValueError otherwise); a float operand is a TypeError. -/
def pyShl : EVal → EVal → Except PyErr EVal
  | int a, int b =>
      if b < 0 then .error .valueError else .ok (int (a * (2 ^ b.toNat)))
  | _, _ => .error .typeError

/-- Python `>>`: only between ints, non-negative count (floor division
by the power of two), ValueError on a negative count, TypeError on a
float operand. -/
def pyShr : EVal → EVal → Except PyErr EVal
  | int a, int b =>
      if b < 0 then .error .valueError else .ok (int (Int.fdiv a (2 ^ b.toNat)))
  | _, _ => .error .typeError

/-- Python `//` (floor division).  Int // int uses floor semantics and
raises ZeroDivisionError on a zero divisor; an int divided by an
infinity floors to 0 or -1 depending on the signs; a nan operand or an
infinite dividend gives nan (divisor int 0 still raises first). -/
def pyFloorDiv : EVal → EVal → Except PyErr EVal
  | _, int 0 => .error .zeroDivisionError
  | nan, _ => .ok nan
  | _, nan => .ok nan
  | int a, posInf => .ok (int (if a ≥ 0 then 0 else -1))
  | int a, negInf => .ok (int (if a ≤ 0 then 0 else -1))
  | negInf, _ => .ok nan
  | posInf, _ => .ok nan
  | int a, int b => .ok (int (Int.fdiv a b))

end EVal

open EVal

/-- A bound of an interval: Python None (unbounded) or a numeric value. -/
abbrev Bound := Option EVal

/-- Python `==` lifted to bounds (None equals only None). -/
def boundPyEq : Bound → Bound → Bool
  | none, none => true
  | some a, some b => pyEq a b
  | _, _ => false

/-- The Interval class of range_analysis.py: a pair of optional bounds.
The Python constructor also caches is_bottom/is_top, but they are pure
functions of the two stored bounds, embedded below as definitions. -/
structure Interval where
  min_val : Bound
  max_val : Bound
deriving DecidableEq, Repr

namespace Interval

/-- Interval.is_bottom: both bounds are Python None. -/
def is_bottom (i : Interval) : Bool := i.min_val.isNone && i.max_val.isNone

/-- Interval.is_top: min_val == float('-inf') and max_val == float('inf')
(Python ==, so a None or nan bound never matches). -/
def is_top (i : Interval) : Bool :=
  boundPyEq i.min_val (some .negInf) && boundPyEq i.max_val (some .posInf)

/-- The empty interval Interval() (bottom). -/
def bottom : Interval := ⟨none, none⟩

/-- The full interval Interval(float('-inf'), float('inf')) (top). -/
def top : Interval := ⟨some .negInf, some .posInf⟩

/-- Convenience constructor for a finite interval [a, b]. -/
def iv (a b : Int) : Interval := ⟨some (.int a), some (.int b)⟩

/-- Interval.__eq__: both bottom, or both top, or bound-wise Python
equality. -/
def pyEqI (a b : Interval) : Bool :=
  (a.is_bottom && b.is_bottom) || (a.is_top && b.is_top) ||
    (boundPyEq a.min_val b.min_val && boundPyEq a.max_val b.max_val)

/-- Interval.join: bottom is identity, any top argument forces top,
otherwise Python min of the lower bounds and max of the upper bounds,
with a None bound whenever either side's bound is None. -/
def join (a b : Interval) : Interval :=
  if a.is_bottom then b
  else if b.is_bottom then a
  else if a.is_top || b.is_top then top
  else
    { min_val :=
        match a.min_val, b.min_val with
        | some x, some y => some (pyMin2 x y)
        | _, _ => none
      max_val :=
        match a.max_val, b.max_val with
        | some x, some y => some (pyMax2 x y)
        | _, _ => none }

/-- Interval.meet: bottom if either side is bottom, a copy of the other
side if one is top, otherwise max of lower bounds and min of upper
bounds, collapsing to bottom when both combined bounds are present and
the lower exceeds the upper. -/
def meet (a b : Interval) : Interval :=
  if a.is_bottom || b.is_bottom then bottom
  else if a.is_top then b
  else if b.is_top then a
  else
    let newMin : Bound :=
      match a.min_val, b.min_val with
      | some x, some y => some (pyMax2 x y)
      | _, _ => none
    let newMax : Bound :=
      match a.max_val, b.max_val with
      | some x, some y => some (pyMin2 x y)
      | _, _ => none
    match newMin, newMax with
    | some x, some y => if pyGt x y then bottom else ⟨some x, some y⟩
    | _, _ => ⟨newMin, newMax⟩

/-- Interval.widen: a copy of the other side when one side is bottom;
otherwise each of self's bounds is kept unless the other side's bound is
present and strictly beyond it, in which case that side becomes
infinite. -/
def widen (a b : Interval) : Interval :=
  if a.is_bottom then b
  else if b.is_bottom then a
  else
    { min_val :=
        match b.min_val, a.min_val with
        | some y, some x => if pyLt y x then some .negInf else some x
        | _, _ => a.min_val
      max_val :=
        match b.max_val, a.max_val with
        | some y, some x => if pyGt y x then some .posInf else some x
        | _, _ => a.max_val }

/-- Interval.narrow: bottom if either side is bottom; otherwise each of
self's bounds is replaced by the other side's bound exactly when it
equals the corresponding infinity. -/
def narrow (a b : Interval) : Interval :=
  if a.is_bottom || b.is_bottom then bottom
  else
    { min_val := if boundPyEq a.min_val (some .negInf) then b.min_val else a.min_val
      max_val := if boundPyEq a.max_val (some .posInf) then b.max_val else a.max_val }

end Interval

/-! Data model of the analyzer's inputs.  Slither IR variables are opaque
handles; the analyzer only reads str(variable).lower() (the name) and
str(variable.type).lower() (the type text, absent when the object has no
type attribute), and keys its tracked-variable dict by object identity,
embedded as the vid field. -/

/-- An IR variable handle. -/
structure Var where
  vid : Nat
  name : String
  typeStr : Option String
deriving DecidableEq, Repr

/-- The value held by a Slither Constant: a Python int (bools are ints),
a string (with its characters), or some other object. -/
inductive ConstVal where
  | cint (n : Int) : ConstVal
  | cstr (s : String) : ConstVal
  | cother : ConstVal
deriving DecidableEq, Repr

/-- An instruction operand: a variable or a Constant.  Constants are
never inserted into the tracked-variable dict (only lvalues are), so the
Python membership test `constant in self._tracked_vars` is always
False, which the embedding hard-codes. -/
inductive Operand where
  | ovar (v : Var) : Operand
  | oconst (c : ConstVal) : Operand
deriving DecidableEq, Repr

/-- Contiguous-sublist test on character lists. -/
def listIsInfix (needle : List Char) : List Char → Bool
  | [] => needle.isEmpty
  | c :: rest => needle.isPrefixOf (c :: rest) || listIsInfix needle rest

/-- Python substring test `needle in hay`. -/
def strContains (hay needle : String) : Bool :=
  listIsInfix needle.toList hay.toList

/-- Python str.isdigit restricted to ASCII digits (sufficient for the
numeric literals the front-end produces): non-empty and all digits. -/
def pyIsDigit (s : String) : Bool :=
  !s.isEmpty && s.toList.all Char.isDigit

/-- Value of a list of ASCII digit characters. -/
def natOfDigits (ds : List Char) : Nat :=
  ds.foldl (fun a c => a * 10 + (c.toNat - 48)) 0

/-- Python int(s) for decimal literals: optional sign then digits
(whitespace/underscore forms are not produced by the front-end and are
not modelled); none means int() raises ValueError. -/
def pyParseInt (s : String) : Option Int :=
  match s.toList with
  | [] => none
  | '-' :: ds => if ds ≠ [] && ds.all Char.isDigit then some (-(natOfDigits ds : Int)) else none
  | '+' :: ds => if ds ≠ [] && ds.all Char.isDigit then some (natOfDigits ds : Int) else none
  | ds => if ds.all Char.isDigit then some (natOfDigits ds : Int) else none

/-- Value of a list of ASCII hex digit characters. -/
def natOfHexDigits (ds : List Char) : Nat :=
  ds.foldl (fun a c =>
    a * 16 + (if c.isDigit then c.toNat - 48
              else if 'a' ≤ c && c ≤ 'f' then c.toNat - 87
              else c.toNat - 55)) 0

/-- Python int(s, 16) for strings starting with 0x; none means it
raises ValueError. -/
def pyParseHex (s : String) : Option Int :=
  match s.toList with
  | '0' :: 'x' :: ds =>
      if ds ≠ [] && ds.all (fun c => c.isDigit || ('a' ≤ c && c ≤ 'f') || ('A' ≤ c && c ≤ 'F'))
      then some (natOfHexDigits (ds.map Char.toLower) : Int) else none
  | _ => none

/-- Python str.startswith("0x"). -/
def startsWith0x (s : String) : Bool := "0x".toList.isPrefixOf s.toList

/-- The regex search for PATTERN(\d+) in a type string, as used with
uint(\d+) and int(\d+): the first occurrence of the pattern followed by
at least one digit yields the digit run's value. -/
def findBitsAux (pat : List Char) : List Char → Option Nat
  | [] => none
  | c :: rest =>
      if pat.isPrefixOf (c :: rest) then
        let ds := ((c :: rest).drop pat.length).takeWhile Char.isDigit
        if ds ≠ [] then some (natOfDigits ds) else findBitsAux pat rest
      else findBitsAux pat rest

/-- Width extraction `int(re.search(r"uint(\d+)", s).group(1))` with the
code's `if re.search(...) else 256` fallback. -/
def findBits (pat : String) (s : String) (dflt : Nat) : Nat :=
  (findBitsAux pat.toList s.toList).getD dflt

/-- _load_deFi_constraints: the ordered DeFi constraint table
(name keyword, min, max). -/
def deFiConstraints : List (String × Int × Int) :=
  [ ("token_balance", 0, 2 ^ 256 - 1),
    ("price_oracle", 0, 10 ^ 36),
    ("leverage_ratio", 1, 100),
    ("fee", 0, 10 ^ 18),
    ("liquidity", 0, 2 ^ 256 - 1),
    ("time_lock", 0, 2 ^ 64 - 1),
    ("slippage", 0, 10 ^ 18),
    ("apy", 0, 10 ^ 20),
    ("interest_rate", 0, 10 ^ 20),
    ("collateral_ratio", 0, 10 ^ 20) ]

/-- The DeFi keyword patterns of _is_deFi_critical. -/
def defiNamePatterns : List String :=
  [ "balance", "price", "ratio", "debt", "supply", "reserve",
    "liquidity", "amount", "fee", "rate", "swap", "pool",
    "collateral", "token", "share", "yield", "reward",
    "slippage", "impermanent", "apy", "tvl", "borrow", "lend",
    "stake", "unstake", "mint", "burn", "redeem", "oracle",
    "margin", "leverage", "flash", "loan", "liquidat" ]

/-- The DeFi interface type patterns of _is_deFi_critical. -/
def defiInterfacePatterns : List String :=
  [ "erc20", "erc721", "erc1155", "ierc20", "ierc721", "ierc1155",
    "uniswap", "sushiswap", "pancakeswap", "balancer", "curve",
    "pair", "router", "factory", "amm", "dex",
    "compound", "aave", "makerdao", "cream", "lending", "ctoken",
    "vault", "pool", "strategy", "yearn", "harvest",
    "chainlink", "oracle", "price", "feed" ]

/-- _is_deFi_critical: name contains a DeFi keyword, or the type text
contains an interface pattern, or is an int/uint or address type. -/
def is_deFi_critical (v : Var) : Bool :=
  if defiNamePatterns.any (fun p => strContains v.name p) then true
  else
    match v.typeStr with
    | none => false
    | some t =>
        if defiInterfacePatterns.any (fun p => strContains t p) then true
        else if strContains t "uint" || strContains t "int" then true
        else if strContains t "address" then true
        else false

/-! The analyzer's per-function mutable state: the tracked-variable dict
(an insertion-ordered map, embedded as an association list with
overwrite-in-place semantics), the _potential_issues list, and the
_safemath_processed set. -/

/-- A recorded entry of _potential_issues.  The Python strings carry
interpolated reprs; only the kind of message is modelled. -/
inductive Issue where
  | divZeroRisk : Issue
  | divZeroCertain : Issue
  | modZeroRisk : Issue
  | modZeroCertain : Issue
  | addOverflow : Issue
  | subUnderflow : Issue
  | mulOverflow : Issue
  | powOverflow : Issue
  | divZeroPotential : Issue
deriving DecidableEq, Repr

/-- A value returned by _check_bounds_violation (None is modelled by
Option). -/
inductive Violation where
  | overflow : Violation
  | underflow : Violation
  | minViolation (keyword : String) : Violation
  | maxViolation (keyword : String) : Violation
deriving DecidableEq, Repr

/-- The tracked-variable dict {variable: Interval}. -/
abbrev TrackedVars := List (Var × Interval)

/-- Dict lookup by key. -/
def lookupVar (s : TrackedVars) (v : Var) : Option Interval :=
  match s with
  | [] => none
  | (k, i) :: rest => if k = v then some i else lookupVar rest v

/-- Dict assignment `d[v] = i`: overwrite in place or append. -/
def insertVar (s : TrackedVars) (v : Var) (i : Interval) : TrackedVars :=
  match s with
  | [] => [(v, i)]
  | (k, j) :: rest => if k = v then (v, i) :: rest else (k, j) :: insertVar rest v i

/-- The keys of the dict. -/
def keysOf (s : TrackedVars) : List Var := s.map Prod.fst

/-- The analyzer state threaded through the handlers. -/
structure AnalyzerState where
  tracked : TrackedVars
  issues : List Issue
  safemath : List Var
deriving DecidableEq, Repr

/-! _apply_binary_operation (range_analysis.py lines 810-1158), embedded
branch by branch.  The function can append to _potential_issues (the
List Issue component) and can raise (the Except component): a negative
or float shift count raises as in Python. -/

/-- The full machine interval Interval(-(2**255), 2**256 - 1). -/
def fullMachine : Interval := Interval.iv (-(2 ^ 255)) (2 ^ 256 - 1)

/-- The unsigned full interval Interval(0, 2**256 - 1). -/
def unsignedFull : Interval := Interval.iv 0 (2 ^ 256 - 1)

/-- Python min over a value and a further list (fold of the builtin). -/
def pyMinL (x : EVal) (xs : List EVal) : EVal :=
  xs.foldl (fun acc y => if pyLt y acc then y else acc) x

/-- Python max over a value and a further list. -/
def pyMaxL (x : EVal) (xs : List EVal) : EVal :=
  xs.foldl (fun acc y => if pyGt y acc then y else acc) x

/-- The final infinity replacement of lines 1151-1155: a -inf lower
bound becomes -(2**255) and a +inf upper bound becomes 2**256 - 1. -/
def finishBounds (nm nM : EVal) : Interval :=
  ⟨some (if pyEq nm .negInf then .int (-(2 ^ 255)) else nm),
   some (if pyEq nM .posInf then .int (2 ^ 256 - 1) else nM)⟩

/-- The "+" branch (lines 845-854): bound-wise sum, then the lower bound
is clamped up to -(2**255) when it is -inf or below it, and the upper
bound is clamped down to 2**256 - 1 when it is +inf or at least 2**256. -/
def addCase (lm lM rm rM : EVal) : Interval :=
  let nm := pyAdd lm rm
  let nM := pyAdd lM rM
  let nm := if pyEq nm .negInf || pyLt nm (.int (-(2 ^ 255))) then .int (-(2 ^ 255)) else nm
  let nM := if pyEq nM .posInf || pyGe nM (.int (2 ^ 256)) then .int (2 ^ 256 - 1) else nM
  finishBounds nm nM

/-- The "-" branch (lines 856-865). -/
def subCase (lm lM rm rM : EVal) : Interval :=
  let nm := pySub lm rM
  let nM := pySub lM rm
  let nm := if pyEq nm .negInf || pyLt nm (.int (-(2 ^ 255))) then .int (-(2 ^ 255)) else nm
  let nM := if pyEq nM .posInf || pyGe nM (.int (2 ^ 256)) then .int (2 ^ 256 - 1) else nM
  finishBounds nm nM

/-- The "*" branch (lines 867-889): full machine range when an infinity
is involved, otherwise min/max of the four corner products with one-sided
clamping. -/
def mulCase (lm lM rm rM : EVal) : Interval :=
  if pyEq lm .negInf || pyEq rm .negInf || pyEq lM .posInf || pyEq rM .posInf then
    fullMachine
  else
    let nm := pyMinL (pyMul lm rm) [pyMul lm rM, pyMul lM rm, pyMul lM rM]
    let nM := pyMaxL (pyMul lm rm) [pyMul lm rM, pyMul lM rm, pyMul lM rM]
    let nm := if pyLt nm (.int (-(2 ^ 255))) then .int (-(2 ^ 255)) else nm
    let nM := if pyGe nM (.int (2 ^ 256)) then .int (2 ^ 256 - 1) else nM
    finishBounds nm nM

/-- The "/" branch (lines 891-951).  A divisor range covering zero
records an issue and returns the full machine interval; an infinite
bound falls back to a sign analysis; the finite case floor-divides the
corners (with the near-zero extremes of lines 941-945) and clamps. -/
def divCase (lm lM rm rM : EVal) : List Issue × Except PyErr Interval :=
  if pyLe rm (.int 0) && pyGe rM (.int 0) then
    if !(pyEq rm (.int 0) && pyEq rM (.int 0)) then ([.divZeroRisk], .ok fullMachine)
    else ([.divZeroCertain], .ok fullMachine)
  else if pyEq lm .negInf || pyEq rm .negInf || pyEq lM .posInf || pyEq rM .posInf then
    if (pyGt rm (.int 0) && pyGe lm (.int 0)) || (pyLt rM (.int 0) && pyLe lM (.int 0)) then
      ([], .ok unsignedFull)
    else if (pyGt rm (.int 0) && pyLe lM (.int 0)) || (pyLt rM (.int 0) && pyGe lm (.int 0)) then
      ([], .ok (Interval.iv (-(2 ^ 255)) 0))
    else ([], .ok fullMachine)
  else
    let isPos := pyGt rm (.int 0)
    let isNeg := pyLt rM (.int 0)
    ([], do
      let quotients ←
        if isPos || isNeg then
          if isPos then do
            let q1 ← pyFloorDiv lm rm
            let q2 ← pyFloorDiv lm rM
            let q3 ← pyFloorDiv lM rm
            let q4 ← pyFloorDiv lM rM
            pure [q1, q2, q3, q4]
          else do
            let q1 ← pyFloorDiv lm rM
            let q2 ← pyFloorDiv lm rm
            let q3 ← pyFloorDiv lM rM
            let q4 ← pyFloorDiv lM rm
            pure [q1, q2, q3, q4]
        else pure []
      let quotients := quotients ++
        (if (isPos || isNeg) && (pyLt (pyAbs rm) (.int 2) || pyLt (pyAbs rM) (.int 2)) then
           (if pyLt lm (.int 0) then [EVal.int (-(2 ^ 255))] else []) ++
             (if pyGt lM (.int 0) then [EVal.int (2 ^ 256 - 1)] else [])
         else [])
      match quotients with
      | [] => pure fullMachine
      | q :: qs =>
          let nm := pyMax2 (.int (-(2 ^ 255))) (pyMinL q qs)
          let nM := pyMin2 (.int (2 ^ 256 - 1)) (pyMaxL q qs)
          pure (finishBounds nm nM))

/-- The "%" branch (lines 953-996): a divisor range covering zero
records an issue and returns [0, 2**256 - 1]; otherwise the remainder
is bounded by the divisor magnitude according to the operand signs. -/
def modCase (lm lM rm rM : EVal) : List Issue × Interval :=
  if pyLe rm (.int 0) && pyGe rM (.int 0) then
    (if !(pyEq rm (.int 0) && pyEq rM (.int 0)) then [.modZeroRisk] else [.modZeroCertain],
     unsignedFull)
  else if pyGt rm (.int 0) then
    if pyGe lm (.int 0) then
      ([], finishBounds (.int 0) (pyMin2 lM (pySub rM (.int 1))))
    else if pyLt lM (.int 0) then
      ([], finishBounds (pyMax2 (pyNeg (pySub rM (.int 1))) lm) (.int 0))
    else
      ([], finishBounds (pyNeg (pySub rM (.int 1))) (pySub rM (.int 1)))
  else if pyLt rM (.int 0) then
    let absRightMin := pyAbs rM
    if pyGe lm (.int 0) then
      ([], finishBounds (.int 0) (pyMin2 lM (pySub absRightMin (.int 1))))
    else if pyLt lM (.int 0) then
      ([], finishBounds (pyMax2 (pyAdd (pyNeg absRightMin) (.int 1)) lm) (.int 0))
    else
      ([], finishBounds (pyAdd (pyNeg absRightMin) (.int 1)) (pySub absRightMin (.int 1)))
  else ([], unsignedFull)

/-- Exact integer power, used by the "**" branch only under guards that
force both arguments to be ints with a non-negative exponent. -/
def ipow : EVal → EVal → Int
  | .int a, .int b => a ^ b.toNat
  | _, _ => 0

/-- Residue mod 2, used by the "**" branch only on int exponents. -/
def emod2 : EVal → Int
  | .int a => a % 2
  | _ => 0

/-- One candidate of the "**" corner loop (lines 1028-1057): none when
no value is appended for this (base, exponent) pair. -/
def powStep (p : EVal × EVal) : Option Int :=
  let l := p.1
  let r := p.2
  if !(pyEq l .negInf) && !(pyEq l .posInf) then
    if !(pyEq r .negInf) && !(pyEq r .posInf) then
      if pyGe l (.int 0) && pyGe r (.int 0) then some (ipow l r)
      else if pyGt l (.int 0) && pyLt r (.int 0) then
        if pyEq l (.int 1) then some 1 else some 0
      else if pyLt l (.int 0) && pyGe r (.int 0) && emod2 r == 0 then some (ipow (pyAbs l) r)
      else if pyLt l (.int 0) && pyGe r (.int 0) && emod2 r == 1 then some (-(ipow (pyAbs l) r))
      else none
    else none
  else none

/-- The "**" branch (lines 998-1064): the special cases for base or
exponent 0 or 1, then min/max over the computed corner powers with
clamping into the machine range. -/
def powCase (L : Interval) (lm lM rm rM : EVal) : Interval :=
  if pyEq lm (.int 0) && pyEq lM (.int 0) then
    if pyGt rm (.int 0) then Interval.iv 0 0
    else if pyEq rm (.int 0) && pyEq rM (.int 0) then Interval.iv 1 1
    else unsignedFull
  else if pyEq lm (.int 1) && pyEq lM (.int 1) then Interval.iv 1 1
  else if pyEq rm (.int 0) && pyEq rM (.int 0) then Interval.iv 1 1
  else if pyEq rm (.int 1) && pyEq rM (.int 1) then L
  else
    let powers := ([(lm, rm), (lm, rM), (lM, rm), (lM, rM)]).filterMap powStep
    match powers with
    | [] => fullMachine
    | p :: ps =>
        let nm := max (-(2 ^ 255)) (ps.foldl min p)
        let nM := min ((2 : Int) ^ 256 - 1) (ps.foldl max p)
        finishBounds (.int nm) (.int nM)

/-- Overflow test of line 1091: left_min < -(2**(255 - max_shift)),
where max_shift is an int in [0, 256] on every reachable path (the
Python threshold for max_shift = 256 is the float -0.5, below which an
integer lies exactly when it is negative). -/
def shlNegOverflow (lm maxShift : EVal) : Bool :=
  match maxShift with
  | .int k => if k ≤ 255 then pyLt lm (.int (-((2 : Int) ^ (255 - k).toNat)))
              else pyLt lm (.int 0)
  | _ => false

/-- Overflow test of line 1103: left_max > (2**256 - 1) >> max_shift. -/
def shlPosOverflow (lM maxShift : EVal) : Bool :=
  match maxShift with
  | .int k => pyGt lM (.int (((2 : Int) ^ 256 - 1) / (2 : Int) ^ k.toNat))
  | _ => false

/-- The shift count int(right_min) if right_min != float('-inf') else 0
(raises on a nan or +inf count as Python int() does). -/
def shiftFromRm (rm : EVal) : Except PyErr Int :=
  if !(pyEq rm .negInf) then pyToInt rm else pure 0

/-- The "<<" branch (lines 1076-1114).  A negative shift count reaching
the raw Python << raises ValueError; a float count raises TypeError. -/
def shlCase (lm lM rm rM : EVal) : Except PyErr Interval :=
  if pyLt rM (.int 0) then do
    let nm ← if !(pyEq lm .negInf) then pyShr lm (pyAbs rM) else pure (.int 0)
    let nM ← if !(pyEq lM .posInf) then pyShr lM (pyAbs rm) else pure (.int 0)
    pure (finishBounds nm nM)
  else do
    let maxShift := if !(pyEq rM .posInf) then pyMin2 rM (.int 256) else .int 256
    let nm ←
      if pyEq lm .negInf then pure (EVal.int (-(2 ^ 255)))
      else if pyLt lm (.int 0) then
        if shlNegOverflow lm maxShift then pure (EVal.int (-(2 ^ 255)))
        else do
          let s ← shiftFromRm rm
          pyShl lm (.int s)
      else do
        let s ← shiftFromRm rm
        pyShl lm (.int s)
    let nM ←
      if pyEq lM .posInf then pure (EVal.int (2 ^ 256 - 1))
      else if pyGt lM (.int 0) && pyGt maxShift (.int 0) then
        if shlPosOverflow lM maxShift then pure (EVal.int (2 ^ 256 - 1))
        else do
          let s ← shiftFromRm rm
          pyShl lM (.int s)
      else do
        let s ← shiftFromRm rm
        pyShl lM (.int s)
    let nm := if pyLt nm (.int (-(2 ^ 255))) then .int (-(2 ^ 255)) else nm
    let nM := if pyGe nM (.int (2 ^ 256)) then .int (2 ^ 256 - 1) else nM
    pure (finishBounds nm nM)

/-- The ">>" branch (lines 1115-1145). -/
def shrCase (lm lM rm rM : EVal) : Except PyErr Interval :=
  if pyLt rM (.int 0) then
    let maxShift := if !(pyEq rm .negInf) then pyMin2 (pyAbs rm) (.int 256) else .int 256
    if pyGt maxShift (.int 30) then
      pure (finishBounds (.int (-(2 ^ 255))) (.int (2 ^ 256 - 1)))
    else do
      let nm ← if !(pyEq lm .negInf) then pyShl lm (pyAbs rM) else pure (EVal.int (-(2 ^ 255)))
      let nM ← if !(pyEq lM .posInf) then pyShl lM (pyAbs rm) else pure (EVal.int (2 ^ 256 - 1))
      let nm := if pyLt nm (.int (-(2 ^ 255))) then .int (-(2 ^ 255)) else nm
      let nM := if pyGe nM (.int (2 ^ 256)) then .int (2 ^ 256 - 1) else nM
      pure (finishBounds nm nM)
  else do
    let nm ←
      if pyEq lm .negInf then pure (EVal.int (-(2 ^ 255)))
      else do
        let s ← if !(pyEq rM .posInf) then pyToInt rM else pure 256
        pyShr lm (.int s)
    let nM ←
      if pyEq lM .posInf then pure (EVal.int (2 ^ 256 - 1))
      else do
        let s ← shiftFromRm rm
        pyShr lM (.int s)
    pure (finishBounds nm nM)

/-- The comparison operator list of line 1066. -/
def cmpOps : List String := ["<", "<=", ">", ">=", "==", "!="]

/-- The boolean connective list of line 1070. -/
def boolOps : List String := ["&&", "||", "and", "or"]

/-- _apply_binary_operation: a bottom operand yields bottom; a top
operand yields top, except that a top divisor of "/" or "%" yields
[0, 2**256 - 1]; otherwise the bounds are read with None replaced by the
matching infinity and the operator branch runs; an unknown operator
yields the full machine interval. -/
def apply_binary_operation (op : String) (L R : Interval) :
    List Issue × Except PyErr Interval :=
  if L.is_bottom || R.is_bottom then ([], .ok Interval.bottom)
  else if L.is_top || R.is_top then
    if (op == "/" || op == "%") && R.is_top then ([], .ok unsignedFull)
    else ([], .ok Interval.top)
  else
    let lm := L.min_val.getD .negInf
    let lM := L.max_val.getD .posInf
    let rm := R.min_val.getD .negInf
    let rM := R.max_val.getD .posInf
    if op == "+" then ([], .ok (addCase lm lM rm rM))
    else if op == "-" then ([], .ok (subCase lm lM rm rM))
    else if op == "*" then ([], .ok (mulCase lm lM rm rM))
    else if op == "/" then divCase lm lM rm rM
    else if op == "%" then (modCase lm lM rm rM).map id .ok
    else if op == "**" then ([], .ok (powCase L lm lM rm rM))
    else if cmpOps.contains op then ([], .ok (Interval.iv 0 1))
    else if boolOps.contains op then ([], .ok (Interval.iv 0 1))
    else if op == "<<" then ([], shlCase lm lM rm rM)
    else if op == ">>" then ([], shrCase lm lM rm rM)
    else ([], .ok fullMachine)

/-! The per-instruction handlers and checkers. -/

/-- _check_overflow_underflow (lines 1160-1207): appends at most one
issue, and is skipped entirely for SafeMath-processed result
variables. -/
def check_overflow_underflow (op : String) (L R : Interval) (result_var : Var)
    (st : AnalyzerState) : AnalyzerState :=
  if st.safemath.contains result_var then st
  else
    let issue : Option Issue :=
      if op == "+" then
        match L.max_val, R.max_val with
        | some a, some b =>
            if pyGe (pyAdd a b) (.int (2 ^ 256)) then some .addOverflow else none
        | _, _ => none
      else if op == "-" then
        match L.min_val, R.max_val with
        | some a, some b =>
            if pyLt a b then
              match result_var.typeStr with
              | some t => if strContains t "uint" then some .subUnderflow else none
              | none => none
            else none
        | _, _ => none
      else if op == "*" then
        match L.max_val, R.max_val with
        | some a, some b =>
            if pyGe (pyMul a b) (.int (2 ^ 256)) then some .mulOverflow else none
        | _, _ => none
      else if op == "**" then
        match L.max_val, R.max_val with
        | some a, some b =>
            if pyGt a (.int 1) && pyGt b (.int 1) then
              if pyGt b (.int 32) then some .powOverflow else none
            else none
        | _, _ => none
      else none
    match issue with
    | some i => { st with issues := st.issues ++ [i] }
    | none => st

/-- _check_division_by_zero (lines 1209-1222): an issue whenever both
divisor bounds are known and enclose zero. -/
def check_division_by_zero (R : Interval) (st : AnalyzerState) : AnalyzerState :=
  match R.min_val, R.max_val with
  | some a, some b =>
      if pyLe a (.int 0) && pyGe b (.int 0) then
        { st with issues := st.issues ++ [.divZeroPotential] }
      else st
  | _, _ => st

/-- The scan over the DeFi constraint table inside
_check_bounds_violation: the first matching keyword whose bound is
violated decides the result. -/
def constraintScan (cur : Interval) (name : String) :
    List (String × Int × Int) → Option Violation
  | [] => none
  | (k, cmin, cmax) :: rest =>
      if strContains name k then
        if (match cur.min_val with | some a => pyLt a (.int cmin) | none => false) then
          some (.minViolation k)
        else if (match cur.max_val with | some b => pyGt b (.int cmax) | none => false) then
          some (.maxViolation k)
        else constraintScan cur name rest
      else constraintScan cur name rest

/-- _check_bounds_violation (lines 1533-1575): overflow when the upper
bound reaches 2**256, underflow when the lower bound is negative and the
declared type mentions uint, then the DeFi constraint table. -/
def check_bounds_violation (v : Var) (tracked : TrackedVars) : Option Violation :=
  match lookupVar tracked v with
  | none => none
  | some cur =>
      if cur.is_bottom then none
      else if (match cur.max_val with | some b => pyGe b (.int (2 ^ 256)) | none => false) then
        some .overflow
      else if (match cur.min_val with | some a => pyLt a (.int 0) | none => false) &&
              (match v.typeStr with | some t => strContains t "uint" | none => false) then
        some .underflow
      else constraintScan cur v.name deFiConstraints

/-- Constant resolution of _handle_binary_op (lines 772-795): an int (or
digit-string) constant becomes a point interval, a parseable 0x string
too, anything else keeps the default (bottom, since constants are never
tracked). -/
def resolveConstBin (c : ConstVal) (dflt : Interval) : Interval :=
  match c with
  | .cint n => Interval.iv n n
  | .cstr s =>
      if pyIsDigit s then Interval.iv (natOfDigits s.toList : Int) (natOfDigits s.toList : Int)
      else if startsWith0x s then
        match pyParseHex s with
        | some n => Interval.iv n n
        | none => dflt
      else dflt
  | .cother => dflt

/-- The operand read self._tracked_vars.get(operand, Interval()) of
lines 768-769 (a Constant is never a dict key, so it reads bottom). -/
def operandInterval (tracked : TrackedVars) (o : Operand) : Interval :=
  match o with
  | .ovar v => (lookupVar tracked v).getD Interval.bottom
  | .oconst _ => Interval.bottom

/-- The operand read followed by the constant resolution of lines
772-795. -/
def resolveOperand (tracked : TrackedVars) (o : Operand) : Interval :=
  match o with
  | .oconst c => resolveConstBin c (operandInterval tracked o)
  | _ => operandInterval tracked o

/-- _handle_binary_op (lines 753-808): read the operand intervals
(absent operands give bottom), resolve constant operands, apply the
transfer function, store the result, and run the overflow/underflow and
division-by-zero checks.  An exception from the transfer function
propagates. -/
def handle_binary_op (op : String) (result_var : Var) (left right : Operand)
    (st : AnalyzerState) : Except PyErr AnalyzerState :=
  match apply_binary_operation op (resolveOperand st.tracked left)
      (resolveOperand st.tracked right) with
  | (iss, .ok r) =>
      let st1 := { st with tracked := insertVar st.tracked result_var r,
                           issues := st.issues ++ iss }
      let st2 := if (["+", "-", "*", "**"] : List String).contains op then
                   check_overflow_underflow op (resolveOperand st.tracked left)
                     (resolveOperand st.tracked right) result_var st1
                 else st1
      let st3 := if (["/", "%"] : List String).contains op then
                   check_division_by_zero (resolveOperand st.tracked right) st2
                 else st2
      .ok st3
  | (_, .error e) => .error e

/-- _handle_assignment (lines 492-538). -/
def handle_assignment (target : Var) (rvalue : Operand) (st : AnalyzerState) :
    AnalyzerState :=
  match rvalue with
  | .oconst c =>
      let parsed : Option Int :=
        match c with
        | .cint n => some n
        | .cstr s =>
            if pyIsDigit s then some (natOfDigits s.toList : Int)
            else if startsWith0x s then pyParseHex s
            else pyParseInt s
        | .cother => none
      match parsed with
      | some n => { st with tracked := insertVar st.tracked target (Interval.iv n n) }
      | none => st
  | .ovar v =>
      match lookupVar st.tracked v with
      | some i => { st with tracked := insertVar st.tracked target i }
      | none =>
          match v.typeStr with
          | some t =>
              if strContains t "address" then
                { st with tracked := insertVar st.tracked target (Interval.iv 0 (2 ^ 160 - 1)) }
              else if strContains t "bool" then
                { st with tracked := insertVar st.tracked target (Interval.iv 0 1) }
              else st
          | none => st

/-- _handle_type_conversion (lines 540-591). -/
def handle_type_conversion (target source : Var) (st : AnalyzerState) : AnalyzerState :=
  match lookupVar st.tracked source with
  | none => st
  | some cur =>
      match target.typeStr with
      | none => st
      | some t =>
          if strContains t "uint" then
            let bits := findBits "uint" t 256
            let nm := match cur.min_val with
              | some v => pyMax2 (.int 0) v
              | none => .int 0
            let nM := match cur.max_val with
              | some v => pyMin2 (.int (2 ^ bits - 1)) v
              | none => .int (2 ^ bits - 1)
            { st with tracked := insertVar st.tracked target ⟨some nm, some nM⟩ }
          else if strContains t "int" then
            let bits := findBits "int" t 256
            let nm := match cur.min_val with
              | some v => pyMax2 (.int (-((2 : Int) ^ (bits - 1)))) v
              | none => .int (-((2 : Int) ^ (bits - 1)))
            let nM := match cur.max_val with
              | some v => pyMin2 (.int ((2 : Int) ^ (bits - 1) - 1)) v
              | none => .int ((2 : Int) ^ (bits - 1) - 1)
            { st with tracked := insertVar st.tracked target ⟨some nm, some nM⟩ }
          else if strContains t "address" then
            { st with tracked := insertVar st.tracked target (Interval.iv 0 (2 ^ 160 - 1)) }
          else if strContains t "bool" then
            if (match cur.min_val with | some v => pyGt v (.int 0) | none => false) then
              { st with tracked := insertVar st.tracked target (Interval.iv 1 1) }
            else if (match cur.max_val with | some v => pyLe v (.int 0) | none => false) then
              { st with tracked := insertVar st.tracked target (Interval.iv 0 0) }
            else
              { st with tracked := insertVar st.tracked target (Interval.iv 0 1) }
          else st

/-- _handle_member (lines 593-628): the catalogue of environment
pseudo-fields (names are the lowered str() of the member operands). -/
def handle_member (lvalue : Var) (leftName rightName : String) (st : AnalyzerState) :
    AnalyzerState :=
  if leftName == "msg" && rightName == "value" then
    { st with tracked := insertVar st.tracked lvalue (Interval.iv 0 (2 ^ 256 - 1)) }
  else if leftName == "block" && rightName == "timestamp" then
    { st with tracked := insertVar st.tracked lvalue (Interval.iv 0 4102444800) }
  else if leftName == "block" && rightName == "number" then
    { st with tracked := insertVar st.tracked lvalue (Interval.iv 0 (2 ^ 64 - 1)) }
  else if leftName == "tx" && rightName == "gasprice" then
    { st with tracked := insertVar st.tracked lvalue (Interval.iv 0 (10 ^ 18)) }
  else if rightName == "balance" then
    { st with tracked := insertVar st.tracked lvalue (Interval.iv 0 (2 ^ 256 - 1)) }
  else st

/-- Argument collection of the add/sub/mul/div/mod branch of
_handle_solidity_call (lines 654-662): a tracked variable contributes
its interval, an int constant a point interval, and anything else makes
the whole handler return with no state change (none). -/
def collectMathArgs (tracked : TrackedVars) : List Operand → Option (List Interval)
  | [] => some []
  | a :: rest =>
      match a with
      | .ovar v =>
          match lookupVar tracked v with
          | some i => (collectMathArgs tracked rest).map (i :: ·)
          | none => none
      | .oconst c =>
          match c with
          | .cint n => (collectMathArgs tracked rest).map (Interval.iv n n :: ·)
          | _ => none

/-- Argument collection of the min/max branches (lines 680-685 and
696-700): unconvertible arguments are simply skipped. -/
def collectMinMaxArgs (tracked : TrackedVars) (args : List Operand) : List Interval :=
  args.filterMap fun a =>
    match a with
    | .ovar v => lookupVar tracked v
    | .oconst c =>
        match c with
        | .cint n => some (Interval.iv n n)
        | _ => none

/-- _handle_solidity_call (lines 630-706).  fname is the already-lowered
callee name and contractName the lowered owning-contract name when the
callee has one.  For add/sub/mul/div/mod the *name itself* is passed as
the op_type of _apply_binary_operation; SafeMath-owned calls mark the
result variable.  min/max compute bound aggregates and raise ValueError
(Python min()/max() of an empty sequence) when no collected argument has
the needed bound. -/
def handle_solidity_call (fname : String) (contractName : Option String)
    (args : List Operand) (lvalue : Var) (st : AnalyzerState) :
    Except PyErr AnalyzerState :=
  let isSafemath :=
    match contractName with
    | some cn => strContains cn "safemath" || strContains cn "math"
    | none => false
  if (["add", "sub", "mul", "div", "mod"] : List String).contains fname then
    match collectMathArgs st.tracked args with
    | none => .ok st
    | some argIs =>
        match argIs with
        | a0 :: a1 :: _ =>
            match apply_binary_operation fname a0 a1 with
            | (iss, .ok r) =>
                .ok { st with
                        tracked := insertVar st.tracked lvalue r,
                        issues := st.issues ++ iss,
                        safemath := if isSafemath then st.safemath ++ [lvalue] else st.safemath }
            | (_, .error e) => .error e
        | _ => .ok st
  else if fname == "min" then
    let argIs := collectMinMaxArgs st.tracked args
    match argIs with
    | a0 :: _ :: _ =>
        match pyMinList (argIs.filterMap (·.max_val)) with
        | .ok mx =>
            .ok { st with tracked := insertVar st.tracked lvalue ⟨a0.min_val, some mx⟩ }
        | .error e => .error e
    | _ => .ok st
  else if fname == "max" then
    let argIs := collectMinMaxArgs st.tracked args
    match argIs with
    | _ :: _ :: _ =>
        match pyMaxList (argIs.filterMap (·.max_val)) with
        | .ok mx =>
            match pyMaxList (argIs.filterMap (·.min_val)) with
            | .ok mn =>
                .ok { st with tracked := insertVar st.tracked lvalue ⟨some mn, some mx⟩ }
            | .error e => .error e
        | .error e => .error e
    | _ => .ok st
  else .ok st

/-- _handle_function_call (lines 708-751): canonical result intervals
keyed by the callee name, its return type, or the criticality of the
target. -/
def handle_function_call (lvalue : Var) (fname : String)
    (returnTypeStr : Option String) (st : AnalyzerState) : AnalyzerState :=
  if strContains fname "balance" || (strContains fname "total" && strContains fname "supply") then
    { st with tracked := insertVar st.tracked lvalue (Interval.iv 0 (2 ^ 256 - 1)) }
  else if strContains fname "price" || strContains fname "rate" then
    { st with tracked := insertVar st.tracked lvalue (Interval.iv 0 (10 ^ 36)) }
  else if strContains fname "allowance" then
    { st with tracked := insertVar st.tracked lvalue (Interval.iv 0 (2 ^ 256 - 1)) }
  else if strContains fname "decimals" then
    { st with tracked := insertVar st.tracked lvalue (Interval.iv 0 18) }
  else if (match returnTypeStr with | some rt => strContains rt "bool" | none => false) then
    { st with tracked := insertVar st.tracked lvalue (Interval.iv 0 1) }
  else if (match returnTypeStr with | some rt => strContains rt "address" | none => false) then
    { st with tracked := insertVar st.tracked lvalue (Interval.iv 0 (2 ^ 160 - 1)) }
  else if is_deFi_critical lvalue then
    { st with tracked := insertVar st.tracked lvalue (Interval.iv 0 (2 ^ 256 - 1)) }
  else st

/-- A Slither IR instruction as consumed by _process_ir, one constructor
per isinstance branch (other covers the unhandled kinds). -/
inductive Instr where
  | binary (op : String) (lvalue : Var) (left right : Operand) : Instr
  | assignment (lvalue : Var) (rvalue : Operand) : Instr
  | typeConversion (lvalue : Var) (source : Var) : Instr
  | member (lvalue : Var) (leftName rightName : String) : Instr
  | solidityCall (lvalue : Var) (fname : String) (contractName : Option String)
      (args : List Operand) : Instr
  | functionCall (lvalue : Var) (fname : String) (returnTypeStr : Option String) : Instr
  | other : Instr
deriving DecidableEq, Repr

/-- _process_ir (lines 467-490): dispatch on the instruction kind. -/
def process_ir (i : Instr) (st : AnalyzerState) : Except PyErr AnalyzerState :=
  match i with
  | .binary op lv l r => handle_binary_op op lv l r st
  | .assignment lv rv => .ok (handle_assignment lv rv st)
  | .typeConversion lv src => .ok (handle_type_conversion lv src st)
  | .member lv ln rn => .ok (handle_member lv ln rn st)
  | .solidityCall lv f cn args => handle_solidity_call f cn args lv st
  | .functionCall lv f rt => .ok (handle_function_call lv f rt st)
  | .other => .ok st

/-- The per-node instruction loop of the worklist driver (lines
1340-1341): instructions run in order and an exception from any of them
propagates (there is no try/except anywhere in _process_ir,
_analyze_function_worklist or analyze). -/
def process_irs (st : AnalyzerState) : List Instr → Except PyErr AnalyzerState
  | [] => .ok st
  | i :: rest => do
      let st' ← process_ir i st
      process_irs st' rest

/-- A branch condition as read by _process_condition: the node's
expression when it is a Binary comparison. -/
inductive CondExpr where
  | binaryCond (op : String) (left right : Operand) : CondExpr
deriving DecidableEq, Repr

/-- Refinement of a tracked variable against a constant threshold
(lines 1434-1476), returning none when the operator is unhandled (the
Python code returns without touching state). -/
def refineConst (op : String) (cur : Interval) (t : Int) : Option Interval :=
  if op == "<" then some (cur.meet ⟨none, some (.int (t - 1))⟩)
  else if op == "<=" then some (cur.meet ⟨none, some (.int t)⟩)
  else if op == ">" then some (cur.meet ⟨some (.int (t + 1)), none⟩)
  else if op == ">=" then some (cur.meet ⟨some (.int t), none⟩)
  else if op == "==" then some (cur.meet ⟨some (.int t), some (.int t)⟩)
  else if op == "!=" then
    if t == 0 then
      if (match cur.min_val with | some a => pyLe a (.int 0) | none => false) &&
         (match cur.max_val with | some b => pyGe b (.int 0) | none => false) then
        let negI : Option Interval :=
          if (match cur.min_val with | some a => pyLt a (.int 0) | none => false) then
            some ⟨cur.min_val, some (.int (-1))⟩
          else none
        let posI : Option Interval :=
          if (match cur.max_val with | some b => pyGt b (.int 0) | none => false) then
            some ⟨some (.int 1), cur.max_val⟩
          else none
        match negI, posI with
        | some n, some p => some ⟨n.min_val, p.max_val⟩
        | some n, none => some n
        | none, some p => some p
        | none, none => some Interval.bottom
      else some cur
    else some cur
  else none

/-- _process_condition (lines 1401-1531): refine the tracked intervals
of the condition's operands.  The constant side of `var OP constant` is
parsed like the other literal sites; for `var OP var` both sides are
refined against the other side's original bounds. -/
def process_condition (c : Option CondExpr) (st : AnalyzerState) : AnalyzerState :=
  match c with
  | none => st
  | some (.binaryCond op left right) =>
      match right with
      | .oconst cv =>
          let threshold : Option Int :=
            match cv with
            | .cint n => some n
            | .cstr s => if startsWith0x s then pyParseHex s else pyParseInt s
            | .cother => none
          match threshold with
          | none => st
          | some t =>
              match left with
              | .oconst _ => st
              | .ovar lv =>
                  match lookupVar st.tracked lv with
                  | none => st
                  | some cur =>
                      match refineConst op cur t with
                      | none => st
                      | some ni =>
                          if !(Interval.pyEqI ni cur) then
                            { st with tracked := insertVar st.tracked lv ni }
                          else st
      | .ovar rv =>
          match left with
          | .oconst _ => st
          | .ovar lv =>
              match lookupVar st.tracked lv, lookupVar st.tracked rv with
              | some li, some ri =>
                  if op == "<" then
                    let st1 := match ri.max_val with
                      | some rmax =>
                          { st with tracked := insertVar st.tracked lv (li.meet ⟨none, some (pySub rmax (.int 1))⟩) }
                      | none => st
                    match li.min_val with
                    | some lmin =>
                        { st1 with tracked := insertVar st1.tracked rv (ri.meet ⟨some (pyAdd lmin (.int 1)), none⟩) }
                    | none => st1
                  else if op == "<=" then
                    let st1 := match ri.max_val with
                      | some rmax =>
                          { st with tracked := insertVar st.tracked lv (li.meet ⟨none, some rmax⟩) }
                      | none => st
                    match li.min_val with
                    | some lmin =>
                        { st1 with tracked := insertVar st1.tracked rv (ri.meet ⟨some lmin, none⟩) }
                    | none => st1
                  else if op == ">" then
                    let st1 := match ri.min_val with
                      | some rmin =>
                          { st with tracked := insertVar st.tracked lv (li.meet ⟨some (pyAdd rmin (.int 1)), none⟩) }
                      | none => st
                    match li.max_val with
                    | some lmax =>
                        { st1 with tracked := insertVar st1.tracked rv (ri.meet ⟨none, some (pySub lmax (.int 1))⟩) }
                    | none => st1
                  else if op == ">=" then
                    let st1 := match ri.min_val with
                      | some rmin =>
                          { st with tracked := insertVar st.tracked lv (li.meet ⟨some rmin, none⟩) }
                      | none => st
                    match li.max_val with
                    | some lmax =>
                        { st1 with tracked := insertVar st1.tracked rv (ri.meet ⟨none, some lmax⟩) }
                    | none => st1
                  else if op == "==" then
                    let inter := li.meet ri
                    { st with tracked := insertVar (insertVar st.tracked lv inter) rv inter }
                  else st
              | _, _ => st

/-! _state_changed (lines 423-465).  The worklist driver calls it with
the default threshold 0.01; interval bounds are ints or infinities, so
abs(old - new) > 0.01 holds for two int bounds exactly when they differ,
for an infinity against anything else always (the difference is an
infinity), and never when both sides are the same infinity (the
difference is nan, and nan > 0.01 is False). -/

/-- The bound-difference test abs(old_bound - new_bound) > 0.01 of
lines 450-457, evaluated for the values interval bounds can hold. -/
def diffExceeds : EVal → EVal → Bool
  | .nan, _ => false
  | _, .nan => false
  | .int a, .int b => a != b
  | .negInf, .negInf => false
  | .posInf, .posInf => false
  | _, _ => true

/-- The per-variable comparison body of the _state_changed loop: type
(bottom/top) change, a bound difference beyond the threshold when both
sides are present, or a bound switching between None and a value. -/
def interval_changed (oldI newI : Interval) : Bool :=
  (oldI.is_bottom != newI.is_bottom) || (oldI.is_top != newI.is_top) ||
  (match oldI.min_val, newI.min_val with | some a, some b => diffExceeds a b | _, _ => false) ||
  (match oldI.max_val, newI.max_val with | some a, some b => diffExceeds a b | _, _ => false) ||
  (oldI.min_val.isNone != newI.min_val.isNone) ||
  (oldI.max_val.isNone != newI.max_val.isNone)

/-- _state_changed: iterate over the post-state variables (the current
self._tracked_vars); a variable missing from the pre-state snapshot, or
one whose interval changed, returns True; no other case does. -/
def state_changed (tracked old : TrackedVars) : Bool :=
  match tracked with
  | [] => false
  | (v, newI) :: rest =>
      match lookupVar old v with
      | none => true
      | some oldI => if interval_changed oldI newI then true else state_changed rest old

/-! Semantic notions used only to state claims (not taken from the
code): membership of a concrete integer in an interval, and ordering of
the bounds that are present. -/

/-- Whether the lower bound admits the concrete integer v (an absent or
-inf bound admits everything; a +inf or nan lower bound admits
nothing). -/
def lowerOkB : Bound → Int → Bool
  | none, _ => true
  | some .negInf, _ => true
  | some .posInf, _ => false
  | some .nan, _ => false
  | some (.int m), v => m ≤ v

/-- Whether the upper bound admits the concrete integer v. -/
def upperOkB : Bound → Int → Bool
  | none, _ => true
  | some .posInf, _ => true
  | some .negInf, _ => false
  | some .nan, _ => false
  | some (.int m), v => v ≤ m

/-- The spec's "concrete value contained in the interval": the interval
is not bottom and v lies within both bounds. -/
def memB (v : Int) (i : Interval) : Bool :=
  !i.is_bottom && lowerOkB i.min_val v && upperOkB i.max_val v

/-- The bounds that are present are ordered (Python lower <= upper; in
particular neither present-and-paired bound is nan). -/
def orderedB (i : Interval) : Bool :=
  match i.min_val, i.max_val with
  | some a, some b => pyLe a b
  | _, _ => true

/-! Concrete variables and states used by the witness evaluations. -/

/-- A tracked uint256 variable named x. -/
def vx : Var := ⟨1, "x", some "uint256"⟩

/-- A tracked uint256 variable named y. -/
def vy : Var := ⟨2, "y", some "uint256"⟩

/-- A result uint256 variable named z. -/
def vz : Var := ⟨3, "z", some "uint256"⟩

/-- The balance state variable of the underflow scenario. -/
def balanceVar : Var := ⟨4, "balance", some "uint256"⟩

/-- The amount parameter of the underflow scenario. -/
def amountVar : Var := ⟨5, "amount", some "uint256"⟩

/-- Decidable equality of Except values, used to evaluate the embedded
handlers at concrete inputs. -/
instance {ε α : Type} [DecidableEq ε] [DecidableEq α] : DecidableEq (Except ε α) := fun a b =>
  match a, b with
  | .ok x, .ok y =>
      if h : x = y then isTrue (congrArg Except.ok h)
      else isFalse (fun hh => h (Except.ok.inj hh))
  | .error e, .error f =>
      if h : e = f then isTrue (congrArg Except.error h)
      else isFalse (fun hh => h (Except.error.inj hh))
  | .ok _, .error _ => isFalse (fun hh => Except.noConfusion hh)
  | .error _, .ok _ => isFalse (fun hh => Except.noConfusion hh)

set_option maxRecDepth 16000

/-- Dict-insertion preserves a lookup of the inserted key. -/
theorem lookupVar_insertVar (s : TrackedVars) (k : Var) (i : Interval) :
    lookupVar (insertVar s k i) k = some i := by
  induction s with
  | nil => simp [insertVar, lookupVar]
  | cons p rest ih =>
      obtain ⟨k', j⟩ := p
      by_cases h : k' = k <;> simp [insertVar, lookupVar, h, ih]

/-- An if-then-else always equals one of its two branches, stated for
Bool conditions. -/
theorem bool_imp_disj (c : Bool) (P Q : Prop) : (c = true → P) ∨ (c = false → Q) := by
  cases c
  · exact Or.inl (fun h => nomatch h)
  · exact Or.inr (fun h => nomatch h)

/-- Dict-insertion only adds or overwrites: every existing key
survives. -/
theorem keys_insertVar (s : TrackedVars) (k : Var) (i : Interval) (v : Var)
    (h : v ∈ keysOf s) : v ∈ keysOf (insertVar s k i) := by
  induction s with
  | nil => simp [keysOf] at h
  | cons p rest ih =>
      obtain ⟨k', j⟩ := p
      by_cases hk : k' = k <;> simp_all [insertVar, keysOf] <;> tauto

/-- _check_overflow_underflow never touches the tracked-variable dict. -/
theorem cou_tracked (op : String) (L R : Interval) (rv : Var) (st : AnalyzerState) :
    (check_overflow_underflow op L R rv st).tracked = st.tracked := by
  unfold check_overflow_underflow
  repeat' split
  all_goals rfl

/-- _check_division_by_zero never touches the tracked-variable dict. -/
theorem cdz_tracked (R : Interval) (st : AnalyzerState) :
    (check_division_by_zero R st).tracked = st.tracked := by
  unfold check_division_by_zero
  repeat' split
  all_goals rfl

/-- _handle_binary_op keeps every tracked key. -/
theorem handle_binary_op_mono (op : String) (rv : Var) (l r : Operand)
    (st st' : AnalyzerState) (hok : handle_binary_op op rv l r st = .ok st')
    (v : Var) (h : v ∈ keysOf st.tracked) : v ∈ keysOf st'.tracked := by
  unfold handle_binary_op at hok
  rcases happ : apply_binary_operation op (resolveOperand st.tracked l)
      (resolveOperand st.tracked r) with ⟨iss, res⟩
  rw [happ] at hok
  cases res with
  | error e => exact absurd hok (by simp)
  | ok r' =>
      injection hok with h'
      subst h'
      split <;> split <;>
        simp only [cou_tracked, cdz_tracked] <;>
        exact keys_insertVar _ _ _ _ h

/-- _handle_solidity_call keeps every tracked key. -/
theorem handle_solidity_call_mono (f : String) (cn : Option String) (args : List Operand)
    (lv : Var) (st st' : AnalyzerState)
    (hok : handle_solidity_call f cn args lv st = .ok st')
    (v : Var) (h : v ∈ keysOf st.tracked) : v ∈ keysOf st'.tracked := by
  unfold handle_solidity_call at hok
  repeat' split at hok
  all_goals (try simp only [] at hok)
  all_goals (repeat' split at hok)
  all_goals first
    | (injection hok with h'
       subst h'
       first | exact h | exact keys_insertVar _ _ _ _ h)
    | exact absurd hok (by simp)

/-- _process_condition keeps every tracked key. -/
theorem process_condition_mono (c : Option CondExpr) (st : AnalyzerState) (v : Var)
    (h : v ∈ keysOf st.tracked) : v ∈ keysOf (process_condition c st).tracked := by
  unfold process_condition
  repeat' split
  all_goals (try simp only [])
  all_goals (repeat' split)
  all_goals first
    | exact h
    | exact keys_insertVar _ _ _ _ h
    | exact keys_insertVar _ _ _ _ (keys_insertVar _ _ _ _ h)

/-- _handle_assignment keeps every tracked key. -/
theorem handle_assignment_mono (t : Var) (rv : Operand) (st : AnalyzerState) (v : Var)
    (h : v ∈ keysOf st.tracked) : v ∈ keysOf (handle_assignment t rv st).tracked := by
  unfold handle_assignment
  repeat' split
  all_goals (try simp only [])
  all_goals (repeat' split)
  all_goals first | exact h | exact keys_insertVar _ _ _ _ h

/-- _handle_type_conversion keeps every tracked key. -/
theorem handle_type_conversion_mono (t s : Var) (st : AnalyzerState) (v : Var)
    (h : v ∈ keysOf st.tracked) : v ∈ keysOf (handle_type_conversion t s st).tracked := by
  unfold handle_type_conversion
  repeat' split
  all_goals (try simp only [])
  all_goals (repeat' split)
  all_goals first | exact h | exact keys_insertVar _ _ _ _ h

/-- _handle_member keeps every tracked key. -/
theorem handle_member_mono (lv : Var) (ln rn : String) (st : AnalyzerState) (v : Var)
    (h : v ∈ keysOf st.tracked) : v ∈ keysOf (handle_member lv ln rn st).tracked := by
  unfold handle_member
  repeat' split
  all_goals first | exact h | exact keys_insertVar _ _ _ _ h

/-- _handle_function_call keeps every tracked key. -/
theorem handle_function_call_mono (lv : Var) (f : String) (rt : Option String)
    (st : AnalyzerState) (v : Var) (h : v ∈ keysOf st.tracked) :
    v ∈ keysOf (handle_function_call lv f rt st).tracked := by
  unfold handle_function_call
  repeat' split
  all_goals first | exact h | exact keys_insertVar _ _ _ _ h

/-- C10: the tracked-variable map's key set grows monotonically: every
instruction handler dispatched by _process_ir (when it returns rather
than raising) and the condition refiner only add or overwrite entries,
so a variable once tracked stays tracked. -/
theorem tracked_keys_monotone :
    (∀ (i : Instr) (st st' : AnalyzerState), process_ir i st = .ok st' →
      ∀ v, v ∈ keysOf st.tracked → v ∈ keysOf st'.tracked) ∧
    (∀ (c : Option CondExpr) (st : AnalyzerState) (v : Var),
      v ∈ keysOf st.tracked → v ∈ keysOf (process_condition c st).tracked) := by
  constructor
  · intro i st st' hok v h
    cases i with
    | binary op lv l r => exact handle_binary_op_mono op lv l r st st' hok v h
    | assignment lv rv =>
        injection hok with h'
        subst h'
        exact handle_assignment_mono lv rv st v h
    | typeConversion lv src =>
        injection hok with h'
        subst h'
        exact handle_type_conversion_mono lv src st v h
    | member lv ln rn =>
        injection hok with h'
        subst h'
        exact handle_member_mono lv ln rn st v h
    | solidityCall lv f cn args => exact handle_solidity_call_mono f cn args lv st st' hok v h
    | functionCall lv f rt =>
        injection hok with h'
        subst h'
        exact handle_function_call_mono lv f rt st v h
    | other =>
        injection hok with h'
        subst h'
        exact h
  · exact process_condition_mono

/-- C10 witness: an assignment keeps the previously tracked x, and an
absent condition keeps the state unchanged. -/
theorem tracked_keys_monotone_witness :
    vx ∈ keysOf (insertVar [(vx, Interval.iv 0 1)] vz (Interval.iv 7 7)) ∧
    vx ∈ keysOf (process_condition none ⟨[(vx, Interval.iv 0 1)], [], []⟩).tracked :=
  ⟨tracked_keys_monotone.1 (.assignment vz (.oconst (.cint 7)))
      ⟨[(vx, Interval.iv 0 1)], [], []⟩
      ⟨insertVar [(vx, Interval.iv 0 1)] vz (Interval.iv 7 7), [], []⟩ (by decide) vx (by decide),
   tracked_keys_monotone.2 none ⟨[(vx, Interval.iv 0 1)], [], []⟩ vx (by decide)⟩

/-- A Python <= between interval bounds never holds with nan on either
side. -/
theorem pyLe_nonNan (x y : EVal) (h : pyLe x y = true) : x ≠ .nan ∧ y ≠ .nan := by
  cases x <;> cases y <;> simp_all [pyLe, pyLt, pyEq]

/-- Python min of lower bounds stays below Python max of upper bounds
when each pair is ordered. -/
theorem pyLe_min2_max2 (x y X Y : EVal) (h1 : pyLe x X = true) (h2 : pyLe y Y = true) :
    pyLe (pyMin2 x y) (pyMax2 X Y) = true := by
  cases x <;> cases y <;> cases X <;> cases Y <;>
    simp_all [pyLe, pyLt, pyEq, pyGt, pyMin2, pyMax2] <;>
    split_ifs <;> simp_all <;> omega

/-- Totality of the Python order on non-nan values. -/
theorem notGt_imp_le (a b : EVal) (hna : a ≠ .nan) (hnb : b ≠ .nan)
    (h : pyGt a b = false) : pyLe a b = true := by
  cases a <;> cases b <;> simp_all [pyLe, pyLt, pyEq, pyGt] <;> omega

/-- pyMax2 of non-nan values is non-nan. -/
theorem pyMax2_nonNan (x y : EVal) (hx : x ≠ .nan) (hy : y ≠ .nan) : pyMax2 x y ≠ .nan := by
  unfold pyMax2
  split <;> assumption

/-- pyMin2 of non-nan values is non-nan. -/
theorem pyMin2_nonNan (x y : EVal) (hx : x ≠ .nan) (hy : y ≠ .nan) : pyMin2 x y ≠ .nan := by
  unfold pyMin2
  split <;> assumption

/-- -inf is below every non-nan value. -/
theorem pyLe_negInf_left (x : EVal) (h : x ≠ .nan) : pyLe .negInf x = true := by
  cases x <;> simp_all [pyLe, pyLt, pyEq]

/-- Every non-nan value is below +inf. -/
theorem pyLe_posInf_right (x : EVal) (h : x ≠ .nan) : pyLe x .posInf = true := by
  cases x <;> simp_all [pyLe, pyLt, pyEq]

/-- C2 (amended): join, meet and widen keep the present bounds ordered
(meet collapses crossing bounds to bottom); the full claimed invariant
fails: bounds of non-bottom, non-top results need not be finite, and
narrow can return an interval with min > max instead of bottom. -/
theorem lattice_ops_preserve_order (a b : Interval)
    (ha : orderedB a = true) (hb : orderedB b = true) :
    orderedB (a.join b) = true ∧ orderedB (a.meet b) = true ∧
    orderedB (a.widen b) = true := by
  obtain ⟨amin, amax⟩ := a
  obtain ⟨bmin, bmax⟩ := b
  refine ⟨?_, ?_, ?_⟩
  · unfold Interval.join
    split_ifs with h1 h2 h3
    · exact hb
    · exact ha
    · rfl
    · cases amin <;> cases amax <;> cases bmin <;> cases bmax <;>
        simp_all [orderedB] <;>
        exact pyLe_min2_max2 _ _ _ _ ha hb
  · unfold Interval.meet
    split_ifs with h1 h2 h3
    · rfl
    · exact hb
    · exact ha
    · cases amin <;> cases amax <;> cases bmin <;> cases bmax <;>
        simp_all [orderedB] <;>
        split_ifs <;>
        first
          | rfl
          | (rename_i hng
             exact notGt_imp_le _ _
               (pyMax2_nonNan _ _ (pyLe_nonNan _ _ ha).1 (pyLe_nonNan _ _ hb).1)
               (pyMin2_nonNan _ _ (pyLe_nonNan _ _ ha).2 (pyLe_nonNan _ _ hb).2)
               (by simpa using hng))
  · unfold Interval.widen
    split_ifs with h1 h2
    · exact hb
    · exact ha
    · cases amin <;> cases amax <;> cases bmin <;> cases bmax <;>
        simp_all [orderedB] <;>
        split_ifs <;>
        first
          | rfl
          | exact ha
          | exact pyLe_negInf_left _ (pyLe_nonNan _ _ ha).2
          | exact pyLe_posInf_right _ (pyLe_nonNan _ _ ha).1
          | decide

/-- C2 witness: the theorem evaluated on [0, 5] and [3, 9]. -/
theorem lattice_ops_preserve_order_witness :
    orderedB ((Interval.iv 0 5).join (Interval.iv 3 9)) = true ∧
    orderedB ((Interval.iv 0 5).meet (Interval.iv 3 9)) = true ∧
    orderedB ((Interval.iv 0 5).widen (Interval.iv 3 9)) = true :=
  lattice_ops_preserve_order (Interval.iv 0 5) (Interval.iv 3 9) (by decide) (by decide)

/-- C8 (amended): _state_changed returns True whenever some post-state
variable is missing from the pre-state or maps to an interval whose
bottom/top status, finite bounds (beyond the 0.01 threshold) or
None-ness changed; a pre-state variable missing from the post-state is
not detected — with an empty post-state the test returns False whatever
the pre-state holds. -/
theorem state_changed_triggers (tracked old : TrackedVars) :
    ((∃ v i, lookupVar tracked v = some i ∧
        (lookupVar old v = none ∨
          ∃ j, lookupVar old v = some j ∧ interval_changed j i = true)) →
      state_changed tracked old = true) ∧
    state_changed [] old = false := by
  constructor
  · rintro ⟨v, i, hv, htrig⟩
    induction tracked with
    | nil => simp [lookupVar] at hv
    | cons p rest ih =>
        obtain ⟨w, newI⟩ := p
        by_cases hw : w = v
        · subst hw
          simp only [lookupVar, eq_self_iff_true, if_true, Option.some.injEq] at hv
          subst hv
          rcases htrig with hnone | ⟨j, hj, hchg⟩
          · simp [state_changed, hnone]
          · simp [state_changed, hj, hchg]
        · simp only [lookupVar, if_neg hw] at hv
          simp only [state_changed]
          cases hold : lookupVar old w with
          | none => rfl
          | some oldI =>
              by_cases hic : interval_changed oldI newI = true
              · simp [hic]
              · simp only [hic, Bool.false_eq_true, ite_false]
                exact ih hv
  · rfl

/-- C8 witness: a fresh variable in the post-state triggers the test,
and an empty post-state never does. -/
theorem state_changed_triggers_witness :
    state_changed [(vx, Interval.iv 0 2)] [] = true ∧ state_changed [] [] = false :=
  ⟨(state_changed_triggers [(vx, Interval.iv 0 2)] []).1
      ⟨vx, Interval.iv 0 2, by decide, Or.inl (by decide)⟩,
   (state_changed_triggers [] []).2⟩

/-- C9: widening never shrinks the first interval: every concrete value
of a stays in a.widen(b); a bottom a gives back (a copy of) b; and for
non-bottom a each bound of the result is either a's bound or the
corresponding infinity, with absent (None) bounds of a preserved. -/
theorem widen_never_loses (a b : Interval) :
    (∀ v : Int, memB v a = true → memB v (a.widen b) = true) ∧
    (a.is_bottom = true → a.widen b = b) ∧
    (a.is_bottom = false →
      ((a.widen b).min_val = a.min_val ∨ (a.widen b).min_val = some .negInf) ∧
      ((a.widen b).max_val = a.max_val ∨ (a.widen b).max_val = some .posInf) ∧
      (a.min_val = none → (a.widen b).min_val = none) ∧
      (a.max_val = none → (a.widen b).max_val = none)) := by
  obtain ⟨amin, amax⟩ := a
  obtain ⟨bmin, bmax⟩ := b
  cases amin <;> cases amax <;> cases bmin <;> cases bmax <;>
    refine ⟨fun v hmem => ?_, fun hb => ?_, fun hnb => ?_⟩ <;>
    (try simp_all [Interval.widen, Interval.is_bottom, memB, lowerOkB, upperOkB]) <;>
    (try split_ifs) <;>
    (try simp_all [lowerOkB, upperOkB]) <;>
    (first
      | exact bool_imp_disj _ _ _
      | exact ⟨bool_imp_disj _ _ _, bool_imp_disj _ _ _⟩)

/-- C9 witness: the theorem evaluated on [0, 10].widen([0, 20]) at the
member 3, and on bottom.widen([1, 2]). -/
theorem widen_never_loses_witness :
    memB 3 ((Interval.iv 0 10).widen (Interval.iv 0 20)) = true ∧
    Interval.bottom.widen (Interval.iv 1 2) = Interval.iv 1 2 :=
  ⟨(widen_never_loses (Interval.iv 0 10) (Interval.iv 0 20)).1 3 (by decide),
   (widen_never_loses Interval.bottom (Interval.iv 1 2)).2.1 (by decide)⟩

/-- C1: the SolidityCall handler passes the callee's *name* ("add", not
"+") to _apply_binary_operation, whose operator dispatch recognizes no
such op_type and falls through to the unknown-operator fallback.  On
argument intervals [1,1] and [2,2] the handler therefore installs the
full machine interval for the target (and still marks it
SafeMath-processed), while the BinaryOp rule for the corresponding
operator "+" yields the point interval [3,3]. -/
theorem solidity_call_math_skips_operator_rule :
    handle_solidity_call "add" (some "safemath") [.ovar vx, .ovar vy] vz
        ⟨[(vx, Interval.iv 1 1), (vy, Interval.iv 2 2)], [], []⟩ =
      .ok ⟨[(vx, Interval.iv 1 1), (vy, Interval.iv 2 2), (vz, fullMachine)], [], [vz]⟩ ∧
    apply_binary_operation "add" (Interval.iv 1 1) (Interval.iv 2 2) =
      ([], .ok fullMachine) ∧
    apply_binary_operation "+" (Interval.iv 1 1) (Interval.iv 2 2) =
      ([], .ok (Interval.iv 3 3)) ∧
    fullMachine ≠ Interval.iv 3 3 := by
  refine ⟨by decide, by decide, by decide, by decide⟩

/-- C5: on the point intervals [2**255, 2**255] the "+" transfer
function records an addition-overflow candidate, but the resulting
interval is Interval(2**256, 2**256 - 1) — the clamping of lines 851-854
only pushes the lower bound up and the upper bound down, so the
overflowed *lower* bound stays above the machine ceiling and the interval
is inverted instead of being the claimed point [2**256-1, 2**256-1]. -/
theorem add_overflow_boundary_not_clamped :
    handle_binary_op "+" vz (.ovar vx) (.ovar vy)
        ⟨[(vx, Interval.iv (2 ^ 255) (2 ^ 255)), (vy, Interval.iv (2 ^ 255) (2 ^ 255))],
          [], []⟩ =
      .ok ⟨[(vx, Interval.iv (2 ^ 255) (2 ^ 255)), (vy, Interval.iv (2 ^ 255) (2 ^ 255)),
            (vz, Interval.iv (2 ^ 256) (2 ^ 256 - 1))],
           [.addOverflow], []⟩ ∧
    Interval.iv (2 ^ 256) (2 ^ 256 - 1) ≠ Interval.iv (2 ^ 256 - 1) (2 ^ 256 - 1) := by
  refine ⟨by decide, by decide⟩

/-- C7: the transfer function raises.  A "<<" with left interval
[10, 20] and right interval [-128, 127] reaches
left_min << int(right_min) with a negative count, the Python ValueError
of which propagates out of _process_ir — and analyze (lines 1577-1622)
and _analyze_function_worklist (lines 1224-1399) contain no try/except,
so the whole run aborts instead of skipping the function. -/
theorem shl_negative_count_raises :
    apply_binary_operation "<<" (Interval.iv 10 20) (Interval.iv (-128) 127) =
      ([], .error .valueError) ∧
    process_irs ⟨[(vx, Interval.iv 10 20), (vy, Interval.iv (-128) 127)], [], []⟩
        [.binary "<<" vz (.ovar vx) (.ovar vy)] = .error .valueError := by
  refine ⟨by decide, by decide⟩

/-- C2 counterexample: narrow is an interval operation that produces a
non-bottom, non-top interval with finite bounds 5 > 3 instead of
yielding bottom: Interval(5, inf).narrow(Interval(0, 3)) replaces the
infinite upper bound by 3 and keeps the lower bound 5. -/
theorem narrow_crossing_counterexample :
    Interval.narrow ⟨some (.int 5), some .posInf⟩ (Interval.iv 0 3) = Interval.iv 5 3 ∧
    (Interval.iv 5 3).is_bottom = false ∧
    (Interval.iv 5 3).is_top = false ∧
    (5 : Int) > 3 := by
  refine ⟨by decide, by decide, by decide, by decide⟩

/-- C3 counterexample: a modulo whose divisor interval [-5, 5] contains
zero returns Interval(0, 2**256 - 1), not the claimed full machine
interval [-(2**255), 2**256 - 1] (the issue is recorded, but the result
differs from the claim). -/
theorem mod_zero_divisor_counterexample :
    apply_binary_operation "%" (Interval.iv 10 10) (Interval.iv (-5) 5) =
      ([.modZeroRisk], .ok unsignedFull) ∧
    unsignedFull ≠ fullMachine := by
  refine ⟨by decide, by decide⟩

/-- C3 (amended): for a division or modulo with non-bottom, non-top
operand intervals whose divisor bounds (None read as infinite) enclose
zero, the transfer function records a division-by-zero candidate and
returns the full machine interval [-(2**255), 2**256 - 1] for division
and [0, 2**256 - 1] for modulo. -/
theorem div_mod_zero_divisor (op : String) (L R : Interval)
    (hop : op = "/" ∨ op = "%")
    (hLb : L.is_bottom = false) (hRb : R.is_bottom = false)
    (hLt : L.is_top = false) (hRt : R.is_top = false)
    (h0l : pyLe (R.min_val.getD .negInf) (.int 0) = true)
    (h0r : pyGe (R.max_val.getD .posInf) (.int 0) = true) :
    (apply_binary_operation op L R).1 ≠ [] ∧
    (apply_binary_operation op L R).2 =
      .ok (if op = "/" then fullMachine else unsignedFull) := by
  rcases hop with h | h <;> subst h
  · have key : apply_binary_operation "/" L R =
        divCase (L.min_val.getD .negInf) (L.max_val.getD .posInf)
          (R.min_val.getD .negInf) (R.max_val.getD .posInf) := by
      unfold apply_binary_operation
      rw [hLb, hRb, hLt, hRt]
      rfl
    rw [key]
    unfold divCase
    rw [h0l, h0r]
    simp only [Bool.and_self, if_true, ite_true]
    split_ifs <;> simp_all
  · have key : apply_binary_operation "%" L R =
        ((modCase (L.min_val.getD .negInf) (L.max_val.getD .posInf)
          (R.min_val.getD .negInf) (R.max_val.getD .posInf)).map id .ok) := by
      unfold apply_binary_operation
      rw [hLb, hRb, hLt, hRt]
      rfl
    rw [key]
    unfold modCase
    rw [h0l, h0r]
    simp only [Bool.and_self, if_true, ite_true]
    split_ifs <;> simp_all [Prod.map]

/-- C3 witness: the theorem evaluated on [10, 10] / [-5, 5]. -/
theorem div_mod_zero_divisor_witness :
    (apply_binary_operation "/" (Interval.iv 10 10) (Interval.iv (-5) 5)).1 ≠ [] ∧
    (apply_binary_operation "/" (Interval.iv 10 10) (Interval.iv (-5) 5)).2 =
      .ok (if "/" = "/" then fullMachine else unsignedFull) :=
  div_mod_zero_divisor "/" (Interval.iv 10 10) (Interval.iv (-5) 5) (Or.inl rfl)
    (by decide) (by decide) (by decide) (by decide) (by decide) (by decide)

/-- C4 counterexample: a comparison with a top operand yields the top
interval, not [0, 1]: the top short-circuit of lines 830-836 runs before
the comparison branch is reached. -/
theorem cmp_top_counterexample :
    apply_binary_operation "<" Interval.top (Interval.iv 1 1) =
      ([], .ok Interval.top) ∧
    Interval.top ≠ Interval.iv 0 1 := by
  refine ⟨by decide, by decide⟩

/-- C4 (amended): for every comparison or boolean-connective operator,
the transfer function yields [0, 1] when both operands are non-bottom
and non-top; a bottom operand yields bottom and a top operand yields the
top interval instead. -/
theorem cmp_bool_transfer (op : String) (L R : Interval)
    (hop : op ∈ cmpOps ∨ op ∈ boolOps) :
    ((L.is_bottom || R.is_bottom) = true →
        apply_binary_operation op L R = ([], .ok Interval.bottom)) ∧
    ((L.is_bottom || R.is_bottom) = false → (L.is_top || R.is_top) = true →
        apply_binary_operation op L R = ([], .ok Interval.top)) ∧
    ((L.is_bottom || R.is_bottom) = false → (L.is_top || R.is_top) = false →
        apply_binary_operation op L R = ([], .ok (Interval.iv 0 1))) := by
  have hops : op = "<" ∨ op = "<=" ∨ op = ">" ∨ op = ">=" ∨ op = "==" ∨ op = "!=" ∨
      op = "&&" ∨ op = "||" ∨ op = "and" ∨ op = "or" := by
    rcases hop with h | h <;> simp [cmpOps, boolOps] at h <;> tauto
  rcases hops with h|h|h|h|h|h|h|h|h|h <;> subst h <;>
    refine ⟨fun hb => ?_, fun hb ht => ?_, fun hb ht => ?_⟩ <;>
      (unfold apply_binary_operation; rw [hb]; try rw [ht]) <;> rfl

/-- C4 witness: the theorem evaluated on [1, 1] < [2, 2]. -/
theorem cmp_bool_transfer_witness :
    apply_binary_operation "<" (Interval.iv 1 1) (Interval.iv 2 2) =
      ([], .ok (Interval.iv 0 1)) :=
  (cmp_bool_transfer "<" (Interval.iv 1 1) (Interval.iv 2 2)
    (Or.inl (by decide))).2.2 (by decide) (by decide)

/-- C6: for any subtraction whose target has a uint type (and is not
SafeMath-processed) with both operand intervals [0, 2**256 - 1], the
handler records a subtraction-underflow candidate and stores the full
machine interval for the target, and _check_bounds_violation on that
stored interval reports an underflow (negative lower bound on an
unsigned variable). -/
theorem sub_underflow_reported (target left right : Var) (st : AnalyzerState) (t : String)
    (hL : lookupVar st.tracked left = some unsignedFull)
    (hR : lookupVar st.tracked right = some unsignedFull)
    (hT : target.typeStr = some t)
    (hU : strContains t "uint" = true)
    (hS : st.safemath.contains target = false) :
    handle_binary_op "-" target (.ovar left) (.ovar right) st =
      .ok { st with tracked := insertVar st.tracked target fullMachine,
                    issues := st.issues ++ [Issue.subUnderflow] } ∧
    check_bounds_violation target (insertVar st.tracked target fullMachine) =
      some .underflow := by
  have happ : apply_binary_operation "-"
      (⟨some (EVal.int 0), some (EVal.int (2 ^ 256 - 1))⟩ : Interval)
      (⟨some (EVal.int 0), some (EVal.int (2 ^ 256 - 1))⟩ : Interval) =
      ([], .ok fullMachine) := by decide
  constructor
  · have hc1 : ((["+", "-", "*", "**"] : List String).contains "-") = true := by decide
    have hc2 : ((["/", "%"] : List String).contains "-") = false := by decide
    have hs1 : (("-" : String) == "+") = false := by decide
    have hs2 : (("-" : String) == "-") = true := by decide
    have g4 : pyLt (EVal.int 0) (EVal.int (2 ^ 256 - 1)) = true := by decide
    simp only [handle_binary_op, resolveOperand, operandInterval, hL, hR,
      Option.getD_some, hc1, hc2,
      if_true, if_false, Bool.false_eq_true, ite_true, ite_false,
      check_overflow_underflow, hS, hs1, hs2, unsignedFull, Interval.iv,
      g4, hT, hU, List.append_nil, happ]
  · have g1 : Interval.is_bottom ⟨some (EVal.int (-2 ^ 255)), some (EVal.int (2 ^ 256 - 1))⟩
        = false := by decide
    have g2 : pyGe (EVal.int (2 ^ 256 - 1)) (EVal.int (2 ^ 256)) = false := by decide
    have g3 : pyLt (EVal.int (-2 ^ 255)) (EVal.int 0) = true := by decide
    simp only [check_bounds_violation, lookupVar_insertVar, hT, hU,
      fullMachine, Interval.iv, g1, g2, g3, Bool.and_true, if_true, if_false,
      Bool.false_eq_true, ite_false, ite_true]

/-- C6 witness: the theorem evaluated on balance = balance - amount with
both tracked intervals [0, 2**256 - 1]. -/
theorem sub_underflow_reported_witness :
    handle_binary_op "-" balanceVar (.ovar balanceVar) (.ovar amountVar)
        ⟨[(balanceVar, unsignedFull), (amountVar, unsignedFull)], [], []⟩ =
      .ok ⟨[(balanceVar, fullMachine), (amountVar, unsignedFull)], [Issue.subUnderflow], []⟩ ∧
    check_bounds_violation balanceVar [(balanceVar, fullMachine), (amountVar, unsignedFull)] =
      some .underflow := by
  exact sub_underflow_reported balanceVar balanceVar amountVar
    ⟨[(balanceVar, unsignedFull), (amountVar, unsignedFull)], [], []⟩ "uint256"
    (by decide) (by decide) rfl (by decide) (by decide)

/-- C8 counterexample: a pre-state variable absent from the post-state
does not make _state_changed return True — the loop iterates only over
the post-state, so with an empty post-state it returns False even though
the pre-state contains a variable. -/
theorem state_changed_disappearance_counterexample :
    lookupVar ([] : TrackedVars) vx = none ∧
    state_changed [] [(vx, Interval.iv 0 1)] = false := by
  refine ⟨by decide, by decide⟩

end RangeAnalysis
